import Mathlib

/-!
Verification of the flow-graph workflow engine (`workflow.go`, package `flow`).

Shallow embedding notes:
* Go `*node` pointers are modelled as string keys into the workflow's
  `availableNodes` map (the spec's "arena of nodes addressed by stable string
  keys").  `node.next` and `node.aggregateNode` therefore hold keys.
* Go maps used by the builder (`nodes`, `destinations`, `availableNodes`) are
  modelled as association lists with overwrite-on-insert semantics (`pinsert`);
  no claim depends on Go's map iteration order.
* `[]byte` payloads are modelled as `String` (Go byte strings); a `nil` slice
  is collapsed to `""`.
* A Go action `func(map[string][]byte) ([]byte, error)` is modelled as a pure
  function `Param → ByteS × Option String`: the returned pair mirrors the two
  Go return values (`error = nil` is `none`).
* The goroutine fan-in of `executeParallel` receives branch results from one
  shared unbuffered channel; the order in which results arrive is the
  completion order of the goroutines.  The executor is therefore parameterised
  by `order : List Nat`, where `order[i]` is the index (into `vertex.next`) of
  the branch whose result arrives i-th.  A real run corresponds to `order`
  being some permutation of `List.range n`.
* Go's mutual recursion `execute`/`executeCondition`/`executeParallel` can
  diverge on cyclic graphs, so the executor is fuel-indexed; `Crash.outOfFuel`
  marks fuel exhaustion, `Crash.panicIdx` marks a Go index-out-of-range panic
  (e.g. `aggregateNode.next[0]` on an empty slice) and `Crash.missing` marks a
  nil-pointer dereference (following a key that has no registered node).
-/

namespace FlowGraph

/-- Byte-string payload (`[]byte` in Go). -/
abbrev ByteS := String

/-- The keyed parameter map handed to an action (`map[string][]byte`). -/
abbrev Param := List (String × ByteS)

/-- A node action: `func(param map[string][]byte) ([]byte, error)`. -/
abbrev Action := Param → ByteS × Option String

/-- An environment assigning each node key its action. -/
abbrev Env := String → Action

/-- First-match association-list lookup. -/
def plookup {α : Type} : List (String × α) → String → Option α
  | [], _ => none
  | (k', v) :: rest, k => if k' = k then some v else plookup rest k

/-- Association-list insert with overwrite semantics (Go `m[k] = v`). -/
def pinsert {α : Type} : List (String × α) → String → α → List (String × α)
  | [], k, v => [(k, v)]
  | (k', v') :: rest, k, v =>
      if k' = k then (k, v) :: rest else (k', v') :: pinsert rest k v

/-- The mutable per-node record of the Go `node` struct (minus the action,
which lives in an `Env`, and minus `key`, which is the association key). -/
structure Node where
  isTrueNode : Bool
  isFalseNode : Bool
  isConditionalNode : Bool
  isParallelNode : Bool
  aggregateNode : Option String
  next : List String
deriving Repr, DecidableEq

/-- An edge record (`vertex` struct): endpoints plus the exporter label. -/
structure Vertex where
  vfrom : String
  vto : String
  label : String
deriving Repr, DecidableEq

/-- The Go `workflow` struct (its mutex is construction-time only and carries
no state, so it is not modelled). -/
structure Workflow where
  root : Option String
  availableNodes : List (String × Node)
  nodes : List (String × List (String × Vertex))
  destinations : List (String × List String)
deriving Repr, DecidableEq

/-- Go `NewWorkflow`: empty maps, no root. -/
def emptyWorkflow : Workflow := ⟨none, [], [], []⟩

/-- Go `NewNode`: a fresh plain node (all role flags false, empty `next`). -/
def newNode : Node := ⟨false, false, false, false, none, []⟩

/-- Go `AddNode` registering one fresh `NewNode` under key `k` (callers of the Go
API register nodes produced by `NewNode`; re-registration overwrites). -/
def AddNode (w : Workflow) (k : String) : Workflow :=
  { w with availableNodes := pinsert w.availableNodes k newNode }

/-- Dereference a node key (follow a Go `*node`). -/
def lookupNode (w : Workflow) (k : String) : Option Node :=
  plookup w.availableNodes k

/-- In-place mutation of the node object registered at `k`. -/
def modifyNode (w : Workflow) (k : String) (g : Node → Node) : Workflow :=
  match plookup w.availableNodes k with
  | none => w
  | some nd => { w with availableNodes := pinsert w.availableNodes k (g nd) }

/-- Go `validateNode`: every key must be registered in `availableNodes`. -/
def validateNode (w : Workflow) (ks : List String) : Bool :=
  ks.all (fun k => (plookup w.availableNodes k).isSome)

/-- The construction errors returned by the edge builders.  `validation` is
"one or more nodes are not registered", `cycle fk tk` is "circular detection
from fk to tk", `selfRef` is "circular reference detected" and `structural`
is "use AddParallelEdge() to use parallel node". -/
inductive WfError
  | validation
  | cycle (fk tk : String)
  | selfRef
  | structural
deriving Repr, DecidableEq

/-- The `destinations` half of `isCircular`: error when `fk` is already a
recorded predecessor of `tk`. -/
def isCircularDest (w : Workflow) (tk fk : String) : Option WfError :=
  match plookup w.destinations tk with
  | none => none
  | some froms => if froms.contains fk then some (.cycle fk tk) else none

/-- Go `isCircular(to, from)`: error when `to` is the current root, or when
`from` is already recorded as a predecessor of `to`. -/
def isCircular (w : Workflow) (tk fk : String) : Option WfError :=
  match w.root with
  | some r => if tk = r then some (.cycle fk r) else isCircularDest w tk fk
  | none => isCircularDest w tk fk

/-- Go `assignRoot`: sets the root only when it is still unset. -/
def assignRoot (w : Workflow) (k : String) : Workflow :=
  match w.root with
  | none => { w with root := some k }
  | some _ => w

/-- Go `w.destinations[tk] = append(w.destinations[tk], fk)`. -/
def appendDest (w : Workflow) (tk fk : String) : Workflow :=
  { w with destinations :=
      pinsert w.destinations tk (((plookup w.destinations tk).getD []) ++ [fk]) }

/-- Go `AddEdge(from, to)`: the returned workflow is the state after the call
(Go mutates the receiver in place, also on some error paths). -/
def AddEdge (w : Workflow) (fk tk : String) : Workflow × Option WfError :=
  if !validateNode w [fk, tk] then (w, some .validation)
  else match isCircular w tk fk with
  | some e => (w, some e)
  | none =>
    if fk = tk then (w, some .selfRef)
    else
      let w := assignRoot w fk
      if (plookup w.nodes fk).isSome then (w, some .structural)
      else
        let w := modifyNode w fk (fun nd => { nd with next := nd.next ++ [tk] })
        let w := { w with nodes := pinsert w.nodes fk [(tk, ⟨fk, tk, ""⟩)] }
        let w := appendDest w tk fk
        (w, none)

/-- Go `AddConditionalEdge(from, condition, trueNode, falseNode)`. -/
def AddConditionalEdge (w : Workflow) (fk ck tk ek : String) :
    Workflow × Option WfError :=
  if !validateNode w [fk, ck, tk, ek] then (w, some .validation)
  else match isCircular w tk fk with
  | some e => (w, some e)
  | none => match isCircular w ek fk with
  | some e => (w, some e)
  | none => match isCircular w ck fk with
  | some e => (w, some e)
  | none =>
    let w := assignRoot w fk
    let w := modifyNode w ck (fun nd => { nd with isConditionalNode := true })
    let w := modifyNode w fk (fun nd => { nd with next := nd.next ++ [ck] })
    let w := modifyNode w tk (fun nd => { nd with isTrueNode := true })
    let w := modifyNode w ek (fun nd => { nd with isFalseNode := true })
    let w := modifyNode w ck (fun nd => { nd with next := [tk, ek] })
    let w := { w with nodes := pinsert w.nodes fk [(ck, ⟨fk, ck, ""⟩)] }
    let w := { w with nodes := pinsert w.nodes ck [(tk, ⟨ck, tk, "true"⟩)] }
    let w := appendDest w tk fk
    let inner := pinsert ((plookup w.nodes ck).getD []) ek ⟨ck, ek, "false"⟩
    let w := { w with nodes := pinsert w.nodes ck inner }
    let w := appendDest w ek fk
    (w, none)

/-- The per-branch loop body of `AddParallelEdge`; on a cycle error the Go
code returns immediately, keeping every mutation already performed. -/
def parallelLoop (ak fk : String) : Workflow → List String → Workflow × Option WfError
  | w, [] => (w, none)
  | w, nk :: rest =>
    match isCircular w nk fk with
    | some e => (w, some e)
    | none =>
    match isCircular w ak nk with
    | some e => (w, some e)
    | none =>
      let w := if ((plookup w.nodes fk).getD []).isEmpty
               then { w with nodes := pinsert w.nodes fk [] } else w
      let inner := pinsert ((plookup w.nodes fk).getD []) nk ⟨fk, nk, ""⟩
      let w := { w with nodes := pinsert w.nodes fk inner }
      let w := { w with nodes := pinsert w.nodes nk [(ak, ⟨nk, ak, ""⟩)] }
      let w := appendDest w nk fk
      let w := appendDest w ak nk
      parallelLoop ak fk w rest

/-- Go `AddParallelEdge(from, aggregate, parallels...)`.  Note that Go sets
`from.isParallelNode = true` before running the per-branch cycle checks. -/
def AddParallelEdge (w : Workflow) (fk ak : String) (parallels : List String) :
    Workflow × Option WfError :=
  if !validateNode w [fk, ak] then (w, some .validation)
  else if !validateNode w parallels then (w, some .validation)
  else match isCircular w ak fk with
  | some e => (w, some e)
  | none =>
    let w := assignRoot w fk
    let w := modifyNode w fk (fun nd => { nd with isParallelNode := true })
    match parallelLoop ak fk w parallels with
    | (w', some e) => (w', some e)
    | (w', none) =>
      let w' := modifyNode w' fk
        (fun nd => { nd with next := parallels, aggregateNode := some ak })
      let w' := appendDest w' ak fk
      (w', none)

/-- One builder call, as issued by a client of the package. -/
inductive Op
  | addNode (k : String)
  | addEdge (fk tk : String)
  | addConditionalEdge (fk ck tk ek : String)
  | addParallelEdge (fk ak : String) (parallels : List String)
deriving Repr, DecidableEq

/-- Apply one builder call, returning the post-call state and the error. -/
def applyOp (w : Workflow) : Op → Workflow × Option WfError
  | .addNode k => (AddNode w k, none)
  | .addEdge f t => AddEdge w f t
  | .addConditionalEdge f c t e => AddConditionalEdge w f c t e
  | .addParallelEdge f a ps => AddParallelEdge w f a ps

/-- Run a call sequence; the Bool records whether every call succeeded. -/
def runAll : Workflow → List Op → Workflow × Bool
  | w, [] => (w, true)
  | w, op :: rest =>
    let p := applyOp w op
    let q := runAll p.1 rest
    (q.1, p.2.isNone && q.2)

/-- The workflow built by a call sequence starting from `NewWorkflow`. -/
def buildW (ops : List Op) : Workflow := (runAll emptyWorkflow ops).1

/-- The `from` key of the first edge-construction call in a sequence. -/
def firstFromKey : List Op → Option String
  | [] => none
  | .addNode _ :: rest => firstFromKey rest
  | .addEdge f _ :: _ => some f
  | .addConditionalEdge f _ _ _ :: _ => some f
  | .addParallelEdge f _ _ :: _ => some f

/-- The adjacency relation recorded in `w.nodes`. -/
def edgeB (w : Workflow) (a b : String) : Bool :=
  match plookup w.nodes a with
  | none => false
  | some m => (plookup m b).isSome

/-- Predicate `chainB w x l` holds when `x → l₀ → l₁ → ⋯` is a path of recorded edges. -/
def chainB (w : Workflow) : String → List String → Bool
  | _, [] => true
  | x, y :: rest => edgeB w x y && chainB w y rest

/-- The adjacency graph contains a (nonempty) directed cycle. -/
def HasCycle (w : Workflow) : Prop :=
  ∃ x l, chainB w x (l ++ [x]) = true

/-- The Go `strconv.ParseBool`: the exact set of accepted literals. -/
def parseBool (s : String) : Option Bool :=
  if ["1", "t", "T", "TRUE", "true", "True"].contains s then some true
  else if ["0", "f", "F", "FALSE", "false", "False"].contains s then some false
  else none

/-- A hard stop of the Go runtime during execution, as opposed to a returned
`error` value: an index-out-of-range panic, a nil dereference, or (model
artefact) fuel exhaustion standing in for non-termination. -/
inductive Crash
  | panicIdx
  | missing
  | outOfFuel
deriving Repr, DecidableEq

/-- Outcome of an execution step: either the Go pair `([]byte, error)` as
returned (`ret res err`), or a runtime crash. -/
inductive RunRes
  | ret (res : ByteS) (err : Option String)
  | crash (c : Crash)
deriving Repr, DecidableEq

/-- The aggregate's input map as built by `executeParallel`: one entry per
position in `branches` (in list order) whose value is the i-th *arriving*
branch result — `branchRes[order[i]]` — followed by `"data" ↦ res`.  The
branch goroutine keeps only the action's first return value (`r, _ :=
n.action(...)`), so branch errors are dropped here. -/
def aggInput (env : Env) (branches : List String) (order : List Nat)
    (res : ByteS) : Param :=
  let branchRes := branches.map (fun bk => (env bk [("data", res)]).1)
  let collected := (List.range branches.length).foldl
    (fun acc i =>
      pinsert acc (branches.getD i "") (branchRes.getD (order.getD i 0) ""))
    []
  pinsert collected "data" res

/-- The pending call of the recursive interpreter: Go's mutually recursive
`execute` / its successor loop / `executeCondition` / `executeParallel`. -/
inductive Call
  | exec (nk : String) (param : ByteS)
  | loop (nks : List String) (result : ByteS)
  | cond (nk : String) (param : ByteS)
  | par (nk : String) (param : ByteS)
deriving Repr, DecidableEq

/-- The execution engine.  `order` is the goroutine completion order used at
a parallel fan-in (see the header note); `fuel` bounds recursion depth. -/
def goRun (env : Env) (w : Workflow) (order : List Nat) :
    Nat → Call → RunRes
  | 0, _ => .crash .outOfFuel
  | fuel + 1, c =>
    match c with
    | .exec nk param =>
      match lookupNode w nk with
      | none => .crash .missing
      | some nd =>
        let pr := env nk [("data", param)]
        if nd.next = [] then .ret pr.1 pr.2
        else goRun env w order fuel (.loop nd.next pr.1)
    | .loop [] result => .ret result none
    | .loop (nk :: rest) result =>
      match lookupNode w nk with
      | none => .crash .missing
      | some nd =>
        match (if nd.isConditionalNode then goRun env w order fuel (.cond nk result)
               else if nd.isParallelNode then goRun env w order fuel (.par nk result)
               else goRun env w order fuel (.exec nk result)) with
        | .crash cr => .crash cr
        | .ret _ (some e) => .ret "" (some e)
        | .ret r none => goRun env w order fuel (.loop rest r)
    | .cond nk param =>
      match lookupNode w nk with
      | none => .crash .missing
      | some nd =>
        let pr := env nk [("data", param)]
        match pr.2 with
        | some e => .ret "" (some e)
        | none =>
          match nd.next[(if (parseBool pr.1).getD false then 0 else 1)]? with
          | none => .crash .panicIdx
          | some tk =>
            match lookupNode w tk with
            | none => .crash .missing
            | some tnd =>
              if tnd.isParallelNode then goRun env w order fuel (.par tk param)
              else if tnd.isConditionalNode then goRun env w order fuel (.cond tk param)
              else goRun env w order fuel (.exec tk param)
    | .par nk param =>
      match lookupNode w nk with
      | none => .crash .missing
      | some nd =>
        let pr := env nk [("data", param)]
        match pr.2 with
        | some e => .ret "" (some e)
        | none =>
          match nd.aggregateNode with
          | none => .crash .missing
          | some ak =>
            let apr := env ak (aggInput env nd.next order pr.1)
            match apr.2 with
            | some e => .ret "" (some e)
            | none =>
              match lookupNode w ak with
              | none => .crash .missing
              | some agg =>
                match agg.next[0]? with
                | none => .crash .panicIdx
                | some sk =>
                  match lookupNode w sk with
                  | none => .crash .missing
                  | some snd' =>
                    if snd'.isConditionalNode then goRun env w order fuel (.cond sk apr.1)
                    else if snd'.isParallelNode then goRun env w order fuel (.par sk apr.1)
                    else goRun env w order fuel (.exec sk apr.1)

/-- Go `Execute(param)`: runs the plain `execute` on the workflow's root. -/
def ExecuteW (env : Env) (w : Workflow) (order : List Nat) (fuel : Nat)
    (param : ByteS) : RunRes :=
  match w.root with
  | none => .crash .missing
  | some rk => goRun env w order fuel (.exec rk param)

/-! ### Concrete workflows and environments used by the claims -/

/-- A two-branch parallel workflow: `r → s ⇒ {b1, b2} ⇒ g → t`. -/
def wPar : Workflow := buildW
  [.addNode "r", .addNode "s", .addNode "b1", .addNode "b2",
   .addNode "g", .addNode "t",
   .addEdge "r" "s", .addParallelEdge "s" "g" ["b1", "b2"],
   .addEdge "g" "t"]

/-- Actions over `wPar` whose aggregate reports the value it received under
the key `"b1"`; branch `b1` returns `"r1"` and branch `b2` returns `"r2"`. -/
def envAttr : Env := fun k p =>
  if k = "b1" then ("r1", none)
  else if k = "b2" then ("r2", none)
  else if k = "g" then ((plookup p "b1").getD "?", none)
  else ((plookup p "data").getD "", none)

/-- Call sequence producing the cycle `a → b → a` past the local check. -/
def opsCycle : List Op :=
  [.addNode "r", .addNode "a", .addNode "b",
   .addEdge "r" "a", .addEdge "a" "b", .addEdge "b" "a"]

/-- A chain `a → b` whose root `a` is set; base state for several witnesses. -/
def wChainAB : Workflow :=
  buildW [.addNode "a", .addNode "b", .addNode "c", .addEdge "a" "b"]

/-- Call sequence whose first edge call names an unregistered `from` node
(`"x"`), fails, and leaves the root unset; the second call then sets it. -/
def opsLateRoot : List Op :=
  [.addNode "a", .addNode "b", .addEdge "x" "b", .addEdge "a" "b"]

/-- Call sequence giving node `"t"` both the true-branch role and, by a later
parallel edge out of `"t"`, the parallel-source role. -/
def opsTwoFlags : List Op :=
  [.addNode "a", .addNode "c", .addNode "t", .addNode "e",
   .addNode "g", .addNode "b",
   .addConditionalEdge "a" "c" "t" "e", .addParallelEdge "t" "g" ["b"]]

/-- The sequential chain `a → b → c` of plain nodes. -/
def wSeq : Workflow := buildW
  [.addNode "a", .addNode "b", .addNode "c",
   .addEdge "a" "b", .addEdge "b" "c"]

/-- Concrete actions for the chain: append the node key to the payload. -/
def envSeqW : Env := fun k p => (((plookup p "data").getD "") ++ k, none)

/-- A conditional workflow `a → c ? (t | e)`. -/
def wCond : Workflow := buildW
  [.addNode "a", .addNode "c", .addNode "t", .addNode "e",
   .addConditionalEdge "a" "c" "t" "e"]

/-- Actions over `wCond` whose condition returns the literal `"true"`. -/
def envCondTrue : Env := fun k p =>
  if k = "c" then ("true", none) else ((plookup p "data").getD "", none)

/-- A parallel workflow `r → s ⇒ {b} ⇒ g` whose aggregate `g` has no
successor. -/
def wAggTerm : Workflow := buildW
  [.addNode "r", .addNode "s", .addNode "b", .addNode "g",
   .addEdge "r" "s", .addParallelEdge "s" "g" ["b"]]

/-- Pass-through actions (every node echoes its `"data"` input). -/
def envEcho : Env := fun _ p => ((plookup p "data").getD "", none)

/-- Actions over `wPar` in which the parallel source `s` itself fails. -/
def envSrcFail : Env := fun k p =>
  if k = "s" then ("", some "src-fail") else ((plookup p "data").getD "", none)

/-- Actions over `wPar` in which the aggregate `g` fails. -/
def envAggFail : Env := fun k p =>
  if k = "g" then ("", some "agg-fail")
  else if k = "b1" then ("r1", none)
  else if k = "b2" then ("r2", none)
  else ((plookup p "data").getD "", none)

/-- Aggregate concatenating the two branch slots; used by the branch-failure
environments. -/
def envBrBase : Env := fun k p =>
  if k = "g" then (((plookup p "b1").getD "") ++ ((plookup p "b2").getD ""), none)
  else ((plookup p "data").getD "", none)

/-- Branch actions that fail (returning a result *and* an error). -/
def envBrFail : Env := fun k p =>
  if k = "b1" then ("r1", some "boom")
  else if k = "b2" then ("r2", some "bam")
  else envBrBase k p

/-- The same branch actions with the errors removed. -/
def envBrOk : Env := fun k p =>
  if k = "b1" then ("r1", none)
  else if k = "b2" then ("r2", none)
  else envBrBase k p

/-- Two registered nodes, no edges yet (root still unset). -/
def wNodesOnly : Workflow := buildW [.addNode "a", .addNode "b"]

/-! ### Invariant-shaped predicates used by the amended claims -/

/-- States reachable from `NewWorkflow` satisfy: while the root is unset, the
adjacency map is still empty (every mutation is preceded by `assignRoot`). -/
def RootNodesInv (w : Workflow) : Prop := w.root = none → w.nodes = []

/-- Pointwise role-flag growth: every flag set in `a` is also set in `b`. -/
def flagLe (a b : Node) : Prop :=
  (a.isTrueNode = true → b.isTrueNode = true) ∧
  (a.isFalseNode = true → b.isFalseNode = true) ∧
  (a.isConditionalNode = true → b.isConditionalNode = true) ∧
  (a.isParallelNode = true → b.isParallelNode = true)

/-- Every node registered in `w` is still registered in `w'` and its role
flags have only grown. -/
def FlagsMono (w w' : Workflow) : Prop :=
  ∀ k nd, lookupNode w k = some nd →
    ∃ nd', lookupNode w' k = some nd' ∧ flagLe nd nd'

/-! ### Helper lemmas -/

lemma plookup_pinsert {α : Type} (m : List (String × α)) (k k' : String) (v : α) :
    plookup (pinsert m k v) k' = if k = k' then some v else plookup m k' := by
  induction m with
  | nil => simp [pinsert, plookup]
  | cons hd tl ih =>
    obtain ⟨k0, v0⟩ := hd
    by_cases h0 : k0 = k
    · subst h0
      by_cases h1 : k0 = k'
      · subst h1; simp [pinsert, plookup]
      · simp [pinsert, plookup, h1]
    · by_cases h1 : k = k'
      · subst h1
        simp [pinsert, plookup, h0, ih]
      · by_cases h2 : k0 = k'
        · subst h2; simp [pinsert, plookup, h0, h1]
        · simp [pinsert, plookup, h0, h1, h2, ih]

lemma assignRoot_nodes (w : Workflow) (k : String) :
    (assignRoot w k).nodes = w.nodes := by
  cases h : w.root <;> simp [assignRoot, h]

lemma assignRoot_avail (w : Workflow) (k : String) :
    (assignRoot w k).availableNodes = w.availableNodes := by
  cases h : w.root <;> simp [assignRoot, h]

lemma assignRoot_dest (w : Workflow) (k : String) :
    (assignRoot w k).destinations = w.destinations := by
  cases h : w.root <;> simp [assignRoot, h]

lemma assignRoot_root_some (w : Workflow) (k r : String) (h : w.root = some r) :
    (assignRoot w k).root = some r := by simp [assignRoot, h]

lemma assignRoot_root_none (w : Workflow) (k : String) (h : w.root = none) :
    (assignRoot w k).root = some k := by simp [assignRoot, h]

lemma modifyNode_nodes (w : Workflow) (k : String) (g : Node → Node) :
    (modifyNode w k g).nodes = w.nodes := by
  unfold modifyNode; split <;> rfl

lemma modifyNode_root (w : Workflow) (k : String) (g : Node → Node) :
    (modifyNode w k g).root = w.root := by
  unfold modifyNode; split <;> rfl

lemma modifyNode_dest (w : Workflow) (k : String) (g : Node → Node) :
    (modifyNode w k g).destinations = w.destinations := by
  unfold modifyNode; split <;> rfl

lemma appendDest_nodes (w : Workflow) (tk fk : String) :
    (appendDest w tk fk).nodes = w.nodes := rfl

lemma appendDest_root (w : Workflow) (tk fk : String) :
    (appendDest w tk fk).root = w.root := rfl

lemma appendDest_avail (w : Workflow) (tk fk : String) :
    (appendDest w tk fk).availableNodes = w.availableNodes := rfl

lemma isCircular_none_ne_root {w : Workflow} {r tk fk : String}
    (hr : w.root = some r) (h : isCircular w tk fk = none) : tk ≠ r := by
  intro he
  subst he
  simp [isCircular, hr] at h

lemma isCircular_not_structural {w : Workflow} {tk fk : String} :
    isCircular w tk fk ≠ some .structural := by
  unfold isCircular isCircularDest
  intro h
  split at h
  · split at h
    · simp at h
    · split at h
      · simp at h
      · split at h <;> simp at h
  · split at h
    · simp at h
    · split at h <;> simp at h

lemma parallelLoop_root (ak fk : String) :
    ∀ (ps : List String) (w : Workflow),
      (parallelLoop ak fk w ps).1.root = w.root := by
  intro ps
  induction ps with
  | nil => intro w; rfl
  | cons nk rest ih =>
    intro w
    unfold parallelLoop
    split
    · rfl
    · split
      · rfl
      · simp only [ih, appendDest_root]
        split <;> rfl

lemma parallelLoop_avail (ak fk : String) :
    ∀ (ps : List String) (w : Workflow),
      (parallelLoop ak fk w ps).1.availableNodes = w.availableNodes := by
  intro ps
  induction ps with
  | nil => intro w; rfl
  | cons nk rest ih =>
    intro w
    unfold parallelLoop
    split
    · rfl
    · split
      · rfl
      · simp only [ih, appendDest_avail]
        split <;> rfl

lemma parallelLoop_not_structural (ak fk : String) :
    ∀ (ps : List String) (w : Workflow),
      (parallelLoop ak fk w ps).2 ≠ some .structural := by
  intro ps
  induction ps with
  | nil => intro w; simp [parallelLoop]
  | cons nk rest ih =>
    intro w
    unfold parallelLoop
    split
    · rename_i e heq
      intro hc
      simp only [Option.some.injEq] at hc
      subst hc
      exact isCircular_not_structural heq
    · split
      · rename_i e heq
        intro hc
        simp only [Option.some.injEq] at hc
        subst hc
        exact isCircular_not_structural heq
      · exact ih _

lemma assignRoot_of_some {w : Workflow} {r : String} (h : w.root = some r)
    (k : String) : assignRoot w k = w := by
  unfold assignRoot
  rw [h]

lemma edgeB_true_iff {w : Workflow} {x y : String} :
    edgeB w x y = true ↔
      ∃ m, plookup w.nodes x = some m ∧ (plookup m y).isSome = true := by
  unfold edgeB
  cases h : plookup w.nodes x <;> simp [h]

lemma plookup_singleton {α : Type} (k k' : String) (v : α) :
    plookup [(k, v)] k' = if k = k' then some v else none := rfl

lemma parallelLoop_new_edge {ak fk r : String} :
    ∀ (ps : List String) (w w' : Workflow), w.root = some r →
      parallelLoop ak fk w ps = (w', none) →
      ∀ x y, edgeB w' x y = true → edgeB w x y = true ∨ y ≠ r := by
  intro ps
  induction ps with
  | nil =>
    intro w w' hr hrun x y he
    unfold parallelLoop at hrun
    cases hrun
    exact Or.inl he
  | cons nk rest ih =>
    intro w w' hr hrun x y he
    unfold parallelLoop at hrun
    split at hrun
    · cases hrun
    · split at hrun
      · cases hrun
      · rename_i e1 hic1 e2 hic2
        -- hic1 : isCircular w nk fk = none, hic2 : isCircular w ak nk = none
        have hnk : nk ≠ r := isCircular_none_ne_root hr hic1
        have hak : ak ≠ r := isCircular_none_ne_root hr hic2
        -- the once-mutated state fed to the recursive call
        set we := if ((plookup w.nodes fk).getD []).isEmpty = true
            then { w with nodes := pinsert w.nodes fk [] } else w with hwe
        have hweNodesX : ∀ x', fk ≠ x' → plookup we.nodes x' = plookup w.nodes x' := by
          intro x' hx'
          rw [hwe]
          split
          · simp [plookup_pinsert, hx']
          · rfl
        have hweRoot : we.root = w.root := by rw [hwe]; split <;> rfl
        have h1 := ih _ _ (by
            show (appendDest (appendDest _ _ _) _ _).root = some r
            simp [appendDest_root, hweRoot, hr]) hrun x y he
        rcases h1 with h1 | h1
        · -- an edge of the state right after this iteration's mutations
          rw [edgeB_true_iff] at h1
          obtain ⟨m, hm, hy⟩ := h1
          simp only [appendDest_nodes] at hm
          rw [plookup_pinsert] at hm
          by_cases hnkx : nk = x
          · rw [if_pos hnkx] at hm
            cases hm
            rw [plookup_singleton] at hy
            by_cases haky : ak = y
            · exact Or.inr (haky ▸ hak)
            · rw [if_neg haky] at hy
              simp at hy
          · rw [if_neg hnkx] at hm
            rw [plookup_pinsert] at hm
            by_cases hfkx : fk = x
            · rw [if_pos hfkx] at hm
              cases hm
              rw [plookup_pinsert] at hy
              by_cases hnky : nk = y
              · exact Or.inr (hnky ▸ hnk)
              · rw [if_neg hnky] at hy
                -- hy is about the (possibly freshly initialised) inner map of fk
                rw [hwe] at hy
                split at hy
                · rename_i hemp
                  rw [plookup_pinsert] at hy
                  simp [plookup] at hy
                · rename_i hemp
                  cases hpn : plookup w.nodes fk with
                  | none => rw [hpn] at hy; simp [plookup] at hy
                  | some m0 =>
                    rw [hpn] at hy
                    refine Or.inl (edgeB_true_iff.mpr ⟨m0, ?_, ?_⟩)
                    · rw [hfkx] at hpn; exact hpn
                    · simpa using hy
            · rw [if_neg hfkx] at hm
              rw [hweNodesX x hfkx] at hm
              exact Or.inl (edgeB_true_iff.mpr ⟨m, hm, hy⟩)
        · exact Or.inr h1

lemma addEdge_new_edge {w : Workflow} {r fk tk x y : String}
    (hr : w.root = some r)
    (hs : (AddEdge w fk tk).2 = none)
    (he : edgeB (AddEdge w fk tk).1 x y = true) :
    edgeB w x y = true ∨ y ≠ r := by
  cases hval : validateNode w [fk, tk] with
  | false => simp [AddEdge, hval] at hs
  | true =>
    cases hic : isCircular w tk fk with
    | some e => simp [AddEdge, hval, hic] at hs
    | none =>
      by_cases hft : fk = tk
      · subst hft
        simp [AddEdge, hval, hic] at hs
      · have htk : tk ≠ r := isCircular_none_ne_root hr hic
        cases hex : (plookup w.nodes fk).isSome with
        | true =>
          simp [AddEdge, hval, hic, hft, assignRoot_of_some hr, hex] at hs
        | false =>
          simp only [AddEdge, hval, hic, hft, assignRoot_of_some hr, hex,
            Bool.not_true, Bool.false_eq_true, if_false, ite_false,
            Bool.not_false] at he
          rw [edgeB_true_iff] at he
          obtain ⟨m, hm, hy⟩ := he
          simp only [appendDest_nodes, modifyNode_nodes] at hm
          rw [plookup_pinsert] at hm
          by_cases hfkx : fk = x
          · rw [if_pos hfkx] at hm
            cases hm
            rw [plookup_singleton] at hy
            by_cases htky : tk = y
            · exact Or.inr (htky ▸ htk)
            · rw [if_neg htky] at hy; simp at hy
          · rw [if_neg hfkx] at hm
            exact Or.inl (edgeB_true_iff.mpr ⟨m, hm, hy⟩)

lemma addCond_new_edge {w : Workflow} {r fk ck tk ek x y : String}
    (hr : w.root = some r)
    (hs : (AddConditionalEdge w fk ck tk ek).2 = none)
    (he : edgeB (AddConditionalEdge w fk ck tk ek).1 x y = true) :
    edgeB w x y = true ∨ y ≠ r := by
  cases hval : validateNode w [fk, ck, tk, ek] with
  | false => simp [AddConditionalEdge, hval] at hs
  | true =>
    cases hic1 : isCircular w tk fk with
    | some e => simp [AddConditionalEdge, hval, hic1] at hs
    | none =>
    cases hic2 : isCircular w ek fk with
    | some e => simp [AddConditionalEdge, hval, hic1, hic2] at hs
    | none =>
    cases hic3 : isCircular w ck fk with
    | some e => simp [AddConditionalEdge, hval, hic1, hic2, hic3] at hs
    | none =>
      have htk : tk ≠ r := isCircular_none_ne_root hr hic1
      have hek : ek ≠ r := isCircular_none_ne_root hr hic2
      have hck : ck ≠ r := isCircular_none_ne_root hr hic3
      simp only [AddConditionalEdge, hval, hic1, hic2, hic3,
        assignRoot_of_some hr, Bool.not_true, Bool.false_eq_true, if_false,
        ite_false] at he
      rw [edgeB_true_iff] at he
      obtain ⟨m, hm, hy⟩ := he
      simp only [appendDest_nodes, modifyNode_nodes,
        appendDest_avail] at hm
      rw [plookup_pinsert] at hm
      by_cases hckx : ck = x
      · rw [if_pos hckx] at hm
        cases hm
        -- the inner map of ck after both conditional inserts
        rw [plookup_pinsert] at hy
        by_cases heky : ek = y
        · exact Or.inr (heky ▸ hek)
        · rw [if_neg heky] at hy
          rw [plookup_pinsert] at hy
          rw [if_pos rfl, Option.getD_some, plookup_singleton] at hy
          by_cases htky : tk = y
          · exact Or.inr (htky ▸ htk)
          · rw [if_neg htky] at hy; simp at hy
      · rw [if_neg hckx] at hm
        rw [plookup_pinsert] at hm
        rw [if_neg hckx] at hm
        rw [plookup_pinsert] at hm
        by_cases hfkx : fk = x
        · rw [if_pos hfkx] at hm
          cases hm
          rw [plookup_singleton] at hy
          by_cases hcky : ck = y
          · exact Or.inr (hcky ▸ hck)
          · rw [if_neg hcky] at hy; simp at hy
        · rw [if_neg hfkx] at hm
          exact Or.inl (edgeB_true_iff.mpr ⟨m, hm, hy⟩)

lemma addPar_new_edge {w : Workflow} {r fk ak x y : String} {ps : List String}
    (hr : w.root = some r)
    (hs : (AddParallelEdge w fk ak ps).2 = none)
    (he : edgeB (AddParallelEdge w fk ak ps).1 x y = true) :
    edgeB w x y = true ∨ y ≠ r := by
  cases hval : validateNode w [fk, ak] with
  | false => simp [AddParallelEdge, hval] at hs
  | true =>
  cases hvps : validateNode w ps with
  | false => simp [AddParallelEdge, hval, hvps] at hs
  | true =>
  cases hic : isCircular w ak fk with
  | some e => simp [AddParallelEdge, hval, hvps, hic] at hs
  | none =>
    simp only [AddParallelEdge, hval, hvps, hic, assignRoot_of_some hr,
      Bool.not_true, Bool.false_eq_true, if_false, ite_false] at hs he
    set w0 := modifyNode w fk
        (fun nd => { nd with isParallelNode := true }) with hw0
    cases hq : parallelLoop ak fk w0 ps with
    | mk w2 e2 =>
      rw [hq] at hs he
      cases e2 with
      | some e => simp at hs
      | none =>
        simp only at he
        have hroot0 : w0.root = some r := by rw [hw0, modifyNode_root]; exact hr
        have h2 : edgeB w2 x y = true := by
          rw [edgeB_true_iff] at he ⊢
          simpa only [appendDest_nodes, modifyNode_nodes] using he
        rcases parallelLoop_new_edge ps w0 w2 hroot0 hq x y h2 with h | h
        · refine Or.inl ?_
          rw [edgeB_true_iff] at h ⊢
          simpa only [hw0, modifyNode_nodes] using h
        · exact Or.inr h

lemma assignRoot_root_isSome (w : Workflow) (k : String) :
    (assignRoot w k).root.isSome = true := by
  cases h : w.root <;> simp [assignRoot, h]

lemma rootNodesInv_of_isSome {w : Workflow} (h : w.root.isSome = true) :
    RootNodesInv w := by
  intro hr
  rw [hr] at h
  simp at h

lemma AddEdge_state_cases (w : Workflow) (fk tk : String) :
    (AddEdge w fk tk).1 = w ∨ (AddEdge w fk tk).1.root = (assignRoot w fk).root := by
  cases hval : validateNode w [fk, tk] with
  | false => left; simp [AddEdge, hval]
  | true =>
    cases hic : isCircular w tk fk with
    | some e => left; simp [AddEdge, hval, hic]
    | none =>
      by_cases hft : fk = tk
      · subst hft
        left; simp [AddEdge, hval, hic]
      · cases hex : (plookup (assignRoot w fk).nodes fk).isSome with
        | true => right; simp [AddEdge, hval, hic, hft, hex]
        | false =>
          right
          simp [AddEdge, hval, hic, hft, hex, appendDest_root, modifyNode_root]

lemma AddConditionalEdge_state_cases (w : Workflow) (fk ck tk ek : String) :
    (AddConditionalEdge w fk ck tk ek).1 = w ∨
      (AddConditionalEdge w fk ck tk ek).1.root = (assignRoot w fk).root := by
  cases hval : validateNode w [fk, ck, tk, ek] with
  | false => left; simp [AddConditionalEdge, hval]
  | true =>
    cases hic1 : isCircular w tk fk with
    | some e => left; simp [AddConditionalEdge, hval, hic1]
    | none =>
    cases hic2 : isCircular w ek fk with
    | some e => left; simp [AddConditionalEdge, hval, hic1, hic2]
    | none =>
    cases hic3 : isCircular w ck fk with
    | some e => left; simp [AddConditionalEdge, hval, hic1, hic2, hic3]
    | none =>
      right
      simp [AddConditionalEdge, hval, hic1, hic2, hic3, appendDest_root,
        modifyNode_root]

lemma AddParallelEdge_state_cases (w : Workflow) (fk ak : String)
    (ps : List String) :
    (AddParallelEdge w fk ak ps).1 = w ∨
      (AddParallelEdge w fk ak ps).1.root = (assignRoot w fk).root := by
  cases hval : validateNode w [fk, ak] with
  | false => left; simp [AddParallelEdge, hval]
  | true =>
  cases hvps : validateNode w ps with
  | false => left; simp [AddParallelEdge, hval, hvps]
  | true =>
  cases hic : isCircular w ak fk with
  | some e => left; simp [AddParallelEdge, hval, hvps, hic]
  | none =>
    right
    simp only [AddParallelEdge, hval, hvps, hic, Bool.not_true,
      Bool.false_eq_true, if_false, ite_false]
    set w0 := modifyNode (assignRoot w fk) fk
        (fun nd => { nd with isParallelNode := true }) with hw0
    have hw0root : w0.root = (assignRoot w fk).root := by
      rw [hw0, modifyNode_root]
    cases hq : parallelLoop ak fk w0 ps with
    | mk w2 e2 =>
      have hw2 : w2.root = w0.root := by
        have := parallelLoop_root ak fk ps w0
        rw [hq] at this
        exact this
      cases e2 with
      | some e => simpa [hq] using (hw2.trans hw0root)
      | none => simpa [hq, appendDest_root, modifyNode_root] using (hw2.trans hw0root)

lemma applyOp_rootNodesInv {w : Workflow} (op : Op) (h : RootNodesInv w) :
    RootNodesInv (applyOp w op).1 := by
  cases op with
  | addNode k =>
    intro hr
    exact h hr
  | addEdge fk tk =>
    rcases AddEdge_state_cases w fk tk with hc | hc
    · rw [applyOp, hc]; exact h
    · exact rootNodesInv_of_isSome (by rw [applyOp, hc]; exact assignRoot_root_isSome w fk)
  | addConditionalEdge fk ck tk ek =>
    rcases AddConditionalEdge_state_cases w fk ck tk ek with hc | hc
    · rw [applyOp, hc]; exact h
    · exact rootNodesInv_of_isSome (by rw [applyOp, hc]; exact assignRoot_root_isSome w fk)
  | addParallelEdge fk ak ps =>
    rcases AddParallelEdge_state_cases w fk ak ps with hc | hc
    · rw [applyOp, hc]; exact h
    · exact rootNodesInv_of_isSome (by rw [applyOp, hc]; exact assignRoot_root_isSome w fk)

lemma runAll_rootNodesInv :
    ∀ (ops : List Op) (w : Workflow), RootNodesInv w →
      RootNodesInv (runAll w ops).1 := by
  intro ops
  induction ops with
  | nil => intro w h; exact h
  | cons op rest ih =>
    intro w h
    exact ih _ (applyOp_rootNodesInv op h)

lemma buildW_rootNodesInv (ops : List Op) : RootNodesInv (buildW ops) :=
  runAll_rootNodesInv ops emptyWorkflow (fun _ => rfl)

lemma AddEdge_err_unchanged {w : Workflow} {fk tk : String} {e : WfError}
    (hInv : RootNodesInv w) (he : (AddEdge w fk tk).2 = some e) :
    (AddEdge w fk tk).1 = w := by
  cases hval : validateNode w [fk, tk] with
  | false => simp [AddEdge, hval]
  | true =>
    cases hic : isCircular w tk fk with
    | some e' => simp [AddEdge, hval, hic]
    | none =>
      by_cases hft : fk = tk
      · subst hft
        simp [AddEdge, hval, hic]
      · cases hex : (plookup (assignRoot w fk).nodes fk).isSome with
        | true =>
          have hnodes : (plookup w.nodes fk).isSome = true := by
            rw [assignRoot_nodes] at hex
            exact hex
          have hroot : w.root.isSome = true := by
            cases hr : w.root with
            | some r => rfl
            | none =>
              rw [hInv hr] at hnodes
              simp [plookup] at hnodes
          obtain ⟨r, hr⟩ := Option.isSome_iff_exists.mp hroot
          simp [AddEdge, hval, hic, hft, hex, assignRoot_of_some hr, hnodes]
        | false =>
          simp [AddEdge, hval, hic, hft, hex] at he

lemma AddConditionalEdge_err_unchanged {w : Workflow} {fk ck tk ek : String}
    {e : WfError} (he : (AddConditionalEdge w fk ck tk ek).2 = some e) :
    (AddConditionalEdge w fk ck tk ek).1 = w := by
  cases hval : validateNode w [fk, ck, tk, ek] with
  | false => simp [AddConditionalEdge, hval]
  | true =>
    cases hic1 : isCircular w tk fk with
    | some e' => simp [AddConditionalEdge, hval, hic1]
    | none =>
    cases hic2 : isCircular w ek fk with
    | some e' => simp [AddConditionalEdge, hval, hic1, hic2]
    | none =>
    cases hic3 : isCircular w ck fk with
    | some e' => simp [AddConditionalEdge, hval, hic1, hic2, hic3]
    | none =>
      simp [AddConditionalEdge, hval, hic1, hic2, hic3] at he

lemma AddParallelEdge_checks_fail_unchanged {w : Workflow} {fk ak : String}
    {ps : List String}
    (hchk : validateNode w [fk, ak] = false ∨ validateNode w ps = false ∨
      (isCircular w ak fk).isSome = true) :
    (AddParallelEdge w fk ak ps).1 = w := by
  cases hval : validateNode w [fk, ak] with
  | false => simp [AddParallelEdge, hval]
  | true =>
  cases hvps : validateNode w ps with
  | false => simp [AddParallelEdge, hval, hvps]
  | true =>
  cases hic : isCircular w ak fk with
  | some e => simp [AddParallelEdge, hval, hvps, hic]
  | none =>
    rcases hchk with h | h | h
    · rw [hval] at h; cases h
    · rw [hvps] at h; cases h
    · rw [hic] at h; cases h

lemma flagLe_refl (nd : Node) : flagLe nd nd :=
  ⟨id, id, id, id⟩

lemma flagLe_trans {a b c : Node} (h1 : flagLe a b) (h2 : flagLe b c) :
    flagLe a c :=
  ⟨fun h => h2.1 (h1.1 h), fun h => h2.2.1 (h1.2.1 h),
   fun h => h2.2.2.1 (h1.2.2.1 h), fun h => h2.2.2.2 (h1.2.2.2 h)⟩

lemma flagsMono_refl (w : Workflow) : FlagsMono w w :=
  fun _ nd h => ⟨nd, h, flagLe_refl nd⟩

lemma flagsMono_trans {w1 w2 w3 : Workflow} (h1 : FlagsMono w1 w2)
    (h2 : FlagsMono w2 w3) : FlagsMono w1 w3 := by
  intro k nd hk
  obtain ⟨nd2, hk2, hle2⟩ := h1 k nd hk
  obtain ⟨nd3, hk3, hle3⟩ := h2 k nd2 hk2
  exact ⟨nd3, hk3, flagLe_trans hle2 hle3⟩

lemma flagsMono_of_avail_eq {w w' : Workflow}
    (h : w'.availableNodes = w.availableNodes) : FlagsMono w w' := by
  intro k nd hk
  refine ⟨nd, ?_, flagLe_refl nd⟩
  unfold lookupNode at hk ⊢
  rw [h]
  exact hk

lemma flagsMono_avail_eq_of {w w2 w3 : Workflow} (h : FlagsMono w w2)
    (ha : w3.availableNodes = w2.availableNodes) : FlagsMono w w3 :=
  flagsMono_trans h (flagsMono_of_avail_eq ha)

lemma flagsMono_modify {w : Workflow} {k : String} {g : Node → Node}
    (hg : ∀ nd, flagLe nd (g nd)) : FlagsMono w (modifyNode w k g) := by
  intro k' nd hk'
  unfold modifyNode
  cases hp : plookup w.availableNodes k with
  | none => exact ⟨nd, hk', flagLe_refl nd⟩
  | some nd0 =>
    unfold lookupNode at hk' ⊢
    simp only [plookup_pinsert]
    by_cases hkk : k = k'
    · subst hkk
      rw [hp] at hk'
      cases hk'
      exact ⟨g nd, by simp, hg nd⟩
    · simp only [if_neg hkk]
      exact ⟨nd, hk', flagLe_refl nd⟩

lemma AddEdge_flagsMono (w : Workflow) (fk tk : String) :
    FlagsMono w (AddEdge w fk tk).1 := by
  cases hval : validateNode w [fk, tk] with
  | false => simp only [AddEdge, hval]; exact flagsMono_refl w
  | true =>
    cases hic : isCircular w tk fk with
    | some e => simp only [AddEdge, hval, hic]; simp; exact flagsMono_refl w
    | none =>
      by_cases hft : fk = tk
      · subst hft
        simp [AddEdge, hval, hic]
        exact flagsMono_refl w
      · cases hex : (plookup (assignRoot w fk).nodes fk).isSome with
        | true =>
          simp [AddEdge, hval, hic, hft, hex]
          exact flagsMono_of_avail_eq (assignRoot_avail w fk)
        | false =>
          simp only [AddEdge, hval, hic, hft, hex, Bool.not_true,
            Bool.false_eq_true, if_false, ite_false]
          have h1 : FlagsMono w (assignRoot w fk) :=
            flagsMono_of_avail_eq (assignRoot_avail w fk)
          have h2 : FlagsMono w (modifyNode (assignRoot w fk) fk
              (fun nd => { nd with next := nd.next ++ [tk] })) :=
            flagsMono_trans h1 (flagsMono_modify (fun nd => ⟨id, id, id, id⟩))
          exact flagsMono_avail_eq_of h2 (by rw [appendDest_avail])

lemma AddConditionalEdge_flagsMono (w : Workflow) (fk ck tk ek : String) :
    FlagsMono w (AddConditionalEdge w fk ck tk ek).1 := by
  cases hval : validateNode w [fk, ck, tk, ek] with
  | false => simp only [AddConditionalEdge, hval]; exact flagsMono_refl w
  | true =>
    cases hic1 : isCircular w tk fk with
    | some e => simp only [AddConditionalEdge, hval, hic1]; simp; exact flagsMono_refl w
    | none =>
    cases hic2 : isCircular w ek fk with
    | some e => simp only [AddConditionalEdge, hval, hic1, hic2]; simp; exact flagsMono_refl w
    | none =>
    cases hic3 : isCircular w ck fk with
    | some e => simp only [AddConditionalEdge, hval, hic1, hic2, hic3]; simp; exact flagsMono_refl w
    | none =>
      simp only [AddConditionalEdge, hval, hic1, hic2, hic3, Bool.not_true,
        Bool.false_eq_true, if_false, ite_false]
      have h1 : FlagsMono w (assignRoot w fk) :=
        flagsMono_of_avail_eq (assignRoot_avail w fk)
      have h2 := flagsMono_trans h1 (flagsMono_modify
        (w := assignRoot w fk) (k := ck)
        (g := fun nd => { nd with isConditionalNode := true })
        (fun nd => ⟨id, id, fun _ => rfl, id⟩))
      have h3 := flagsMono_trans h2 (flagsMono_modify
        (k := fk) (g := fun nd => { nd with next := nd.next ++ [ck] })
        (fun nd => ⟨id, id, id, id⟩))
      have h4 := flagsMono_trans h3 (flagsMono_modify
        (k := tk) (g := fun nd => { nd with isTrueNode := true })
        (fun nd => ⟨fun _ => rfl, id, id, id⟩))
      have h5 := flagsMono_trans h4 (flagsMono_modify
        (k := ek) (g := fun nd => { nd with isFalseNode := true })
        (fun nd => ⟨id, fun _ => rfl, id, id⟩))
      have h6 := flagsMono_trans h5 (flagsMono_modify
        (k := ck) (g := fun nd => { nd with next := [tk, ek] })
        (fun nd => ⟨id, id, id, id⟩))
      exact flagsMono_avail_eq_of h6 (by
        simp only [appendDest_avail])

lemma AddParallelEdge_flagsMono (w : Workflow) (fk ak : String)
    (ps : List String) : FlagsMono w (AddParallelEdge w fk ak ps).1 := by
  cases hval : validateNode w [fk, ak] with
  | false => simp only [AddParallelEdge, hval]; exact flagsMono_refl w
  | true =>
  cases hvps : validateNode w ps with
  | false => simp only [AddParallelEdge, hval, hvps]; simp; exact flagsMono_refl w
  | true =>
  cases hic : isCircular w ak fk with
  | some e => simp only [AddParallelEdge, hval, hvps, hic]; simp; exact flagsMono_refl w
  | none =>
    simp only [AddParallelEdge, hval, hvps, hic, Bool.not_true,
      Bool.false_eq_true, if_false, ite_false]
    set w0 := modifyNode (assignRoot w fk) fk
        (fun nd => { nd with isParallelNode := true }) with hw0
    have h0 : FlagsMono w w0 := by
      rw [hw0]
      exact flagsMono_trans (flagsMono_of_avail_eq (assignRoot_avail w fk))
        (flagsMono_modify (fun nd => ⟨id, id, id, fun _ => rfl⟩))
    cases hq : parallelLoop ak fk w0 ps with
    | mk w2 e2 =>
      have havail : w2.availableNodes = w0.availableNodes := by
        have := parallelLoop_avail ak fk ps w0
        rw [hq] at this
        exact this
      have h2 : FlagsMono w w2 := flagsMono_avail_eq_of h0 havail
      cases e2 with
      | some e => simpa [hq] using h2
      | none =>
        have h3 := flagsMono_trans h2 (flagsMono_modify
          (w := w2) (k := fk)
          (g := fun nd => { nd with next := ps, aggregateNode := some ak })
          (fun nd => ⟨id, id, id, id⟩))
        simpa [hq] using flagsMono_avail_eq_of h3 (by rw [appendDest_avail])

lemma AddEdge_success_root {w : Workflow} {fk tk : String}
    (hs : (AddEdge w fk tk).2 = none) :
    (AddEdge w fk tk).1.root = (assignRoot w fk).root := by
  cases hval : validateNode w [fk, tk] with
  | false => simp [AddEdge, hval] at hs
  | true =>
    cases hic : isCircular w tk fk with
    | some e => simp [AddEdge, hval, hic] at hs
    | none =>
      by_cases hft : fk = tk
      · subst hft
        simp [AddEdge, hval, hic] at hs
      · cases hex : (plookup (assignRoot w fk).nodes fk).isSome with
        | true => simp [AddEdge, hval, hic, hft, hex] at hs
        | false =>
          simp [AddEdge, hval, hic, hft, hex, appendDest_root, modifyNode_root]

lemma AddConditionalEdge_success_root {w : Workflow} {fk ck tk ek : String}
    (hs : (AddConditionalEdge w fk ck tk ek).2 = none) :
    (AddConditionalEdge w fk ck tk ek).1.root = (assignRoot w fk).root := by
  cases hval : validateNode w [fk, ck, tk, ek] with
  | false => simp [AddConditionalEdge, hval] at hs
  | true =>
    cases hic1 : isCircular w tk fk with
    | some e => simp [AddConditionalEdge, hval, hic1] at hs
    | none =>
    cases hic2 : isCircular w ek fk with
    | some e => simp [AddConditionalEdge, hval, hic1, hic2] at hs
    | none =>
    cases hic3 : isCircular w ck fk with
    | some e => simp [AddConditionalEdge, hval, hic1, hic2, hic3] at hs
    | none =>
      simp [AddConditionalEdge, hval, hic1, hic2, hic3, appendDest_root,
        modifyNode_root]

lemma AddParallelEdge_success_root {w : Workflow} {fk ak : String}
    {ps : List String} (hs : (AddParallelEdge w fk ak ps).2 = none) :
    (AddParallelEdge w fk ak ps).1.root = (assignRoot w fk).root := by
  cases hval : validateNode w [fk, ak] with
  | false => simp [AddParallelEdge, hval] at hs
  | true =>
  cases hvps : validateNode w ps with
  | false => simp [AddParallelEdge, hval, hvps] at hs
  | true =>
  cases hic : isCircular w ak fk with
  | some e => simp [AddParallelEdge, hval, hvps, hic] at hs
  | none =>
    simp only [AddParallelEdge, hval, hvps, hic, Bool.not_true,
      Bool.false_eq_true, if_false, ite_false] at hs ⊢
    set w0 := modifyNode (assignRoot w fk) fk
        (fun nd => { nd with isParallelNode := true }) with hw0
    have hw0root : w0.root = (assignRoot w fk).root := by
      rw [hw0, modifyNode_root]
    cases hq : parallelLoop ak fk w0 ps with
    | mk w2 e2 =>
      have hw2 : w2.root = w0.root := by
        have := parallelLoop_root ak fk ps w0
        rw [hq] at this
        exact this
      cases e2 with
      | some e => rw [hq] at hs; simp at hs
      | none =>
        simpa [appendDest_root, modifyNode_root] using (hw2.trans hw0root)

/-! ### Claim theorems -/

/-- C2 counterexample: the call sequence `r→a`, `a→b`, `b→a` passes every
builder check (all three `AddEdge` calls succeed), yet the resulting
adjacency graph contains the directed cycle `a → b → a`.  This refutes the
claim that every workflow built through successful edge calls is acyclic. -/
theorem C2_cycle_constructible :
    (runAll emptyWorkflow opsCycle).2 = true ∧ HasCycle (buildW opsCycle) :=
  ⟨by decide, ⟨"a", ["b"], by decide⟩⟩

/-- C2 amended: acyclicity is not an invariant; what the local `isCircular`
check does guarantee is that once the root is set, no successful
edge-construction call records a new adjacency edge pointing at the root
(so every cycle that can be built avoids the root). -/
theorem C2_amended_no_new_edge_to_established_root :
    ∀ (w : Workflow) (r : String), w.root = some r →
      (∀ fk tk x y, (AddEdge w fk tk).2 = none →
          edgeB (AddEdge w fk tk).1 x y = true → edgeB w x y = true ∨ y ≠ r) ∧
      (∀ fk ck tk ek x y, (AddConditionalEdge w fk ck tk ek).2 = none →
          edgeB (AddConditionalEdge w fk ck tk ek).1 x y = true →
          edgeB w x y = true ∨ y ≠ r) ∧
      (∀ fk ak ps x y, (AddParallelEdge w fk ak ps).2 = none →
          edgeB (AddParallelEdge w fk ak ps).1 x y = true →
          edgeB w x y = true ∨ y ≠ r) := by
  intro w r hr
  exact ⟨fun fk tk x y hs he => addEdge_new_edge hr hs he,
         fun fk ck tk ek x y hs he => addCond_new_edge hr hs he,
         fun fk ak ps x y hs he => addPar_new_edge hr hs he⟩

/-- Witness for the amended C2 at a concrete successful `AddEdge`. -/
theorem C2_amended_witness :
    wChainAB.root = some "a" ∧ (AddEdge wChainAB "b" "c").2 = none ∧
      (edgeB wChainAB "b" "c" = true ∨ "c" ≠ "a") :=
  ⟨by decide, by decide,
    (C2_amended_no_new_edge_to_established_root wChainAB "a" (by decide)).1
      "b" "c" "b" "c" (by decide) (by decide)⟩

/-- C3 counterexample: `AddParallelEdge(b, c, a)` on the workflow `a → b`
returns a cycle error (branch `a` is the root), yet it has already mutated
the workflow: `b.isParallelNode` is now set.  This refutes the claim that
every failing edge-construction call leaves the state entirely unchanged. -/
theorem C3_failed_parallel_edge_mutates :
    ((AddParallelEdge wChainAB "b" "c" ["a"]).2).isSome = true ∧
    (AddParallelEdge wChainAB "b" "c" ["a"]).1 ≠ wChainAB ∧
    (lookupNode (AddParallelEdge wChainAB "b" "c" ["a"]).1 "b").map
        Node.isParallelNode = some true ∧
    (lookupNode wChainAB "b").map Node.isParallelNode = some false :=
  ⟨by decide, by decide, by decide, by decide⟩

/-- C3 amended: a failing `AddEdge` (from a reachable state) and a failing
`AddConditionalEdge` (from any state) leave the workflow unchanged, and so
does `AddParallelEdge` when it fails validation or the pre-loop
aggregate-versus-from cycle check; only a cycle error raised inside the
per-branch loop of `AddParallelEdge` leaves mutations behind. -/
theorem C3_amended_error_rollback :
    (∀ (ops : List Op) (fk tk : String) (e : WfError),
        (AddEdge (buildW ops) fk tk).2 = some e →
        (AddEdge (buildW ops) fk tk).1 = buildW ops) ∧
    (∀ (w : Workflow) (fk ck tk ek : String) (e : WfError),
        (AddConditionalEdge w fk ck tk ek).2 = some e →
        (AddConditionalEdge w fk ck tk ek).1 = w) ∧
    (∀ (w : Workflow) (fk ak : String) (ps : List String),
        (validateNode w [fk, ak] = false ∨ validateNode w ps = false ∨
          (isCircular w ak fk).isSome = true) →
        (AddParallelEdge w fk ak ps).1 = w) :=
  ⟨fun ops _ _ _ he => AddEdge_err_unchanged (buildW_rootNodesInv ops) he,
   fun _ _ _ _ _ _ he => AddConditionalEdge_err_unchanged he,
   fun _ _ _ _ h => AddParallelEdge_checks_fail_unchanged h⟩

/-- Witness for the amended C3 at concrete failing calls. -/
theorem C3_amended_witness :
    (AddEdge (buildW [Op.addNode "a"]) "a" "a").2 = some WfError.selfRef ∧
    (AddEdge (buildW [Op.addNode "a"]) "a" "a").1 = buildW [Op.addNode "a"] ∧
    (AddConditionalEdge emptyWorkflow "a" "b" "c" "d").1 = emptyWorkflow ∧
    (AddParallelEdge emptyWorkflow "a" "b" ["c"]).1 = emptyWorkflow :=
  ⟨by decide,
   C3_amended_error_rollback.1 [Op.addNode "a"] "a" "a" WfError.selfRef (by decide),
   C3_amended_error_rollback.2.1 emptyWorkflow "a" "b" "c" "d"
     WfError.validation (by decide),
   C3_amended_error_rollback.2.2 emptyWorkflow "a" "b" ["c"]
     (Or.inl (by decide))⟩

/-- C5 counterexample: after `AddConditionalEdge(a, c, t, e)` followed by
`AddParallelEdge(t, g, b)`, node `t` carries both `isTrueNode` and
`isParallelNode`.  This refutes the claim that a node never has more than
one role flag set. -/
theorem C5_two_role_flags :
    (runAll emptyWorkflow opsTwoFlags).2 = true ∧
    (lookupNode (buildW opsTwoFlags) "t").map
        (fun nd => nd.isTrueNode && nd.isParallelNode) = some true :=
  ⟨by decide, by decide⟩

/-- C5 amended: role flags are monotone — every edge-construction call keeps
each registered node registered and never clears a role flag that was set —
but a node may accumulate several role flags. -/
theorem C5_amended_flags_monotone :
    ∀ (w : Workflow),
      (∀ fk tk, FlagsMono w (AddEdge w fk tk).1) ∧
      (∀ fk ck tk ek, FlagsMono w (AddConditionalEdge w fk ck tk ek).1) ∧
      (∀ fk ak ps, FlagsMono w (AddParallelEdge w fk ak ps).1) :=
  fun w =>
    ⟨fun fk tk => AddEdge_flagsMono w fk tk,
     fun fk ck tk ek => AddConditionalEdge_flagsMono w fk ck tk ek,
     fun fk ak ps => AddParallelEdge_flagsMono w fk ak ps⟩

/-- Witness for the amended C5 at a concrete call. -/
theorem C5_amended_witness :
    lookupNode wChainAB "b" = some ⟨false, false, false, false, none, []⟩ ∧
    ∃ nd', lookupNode (AddParallelEdge wChainAB "b" "c" ["a"]).1 "b" = some nd' ∧
      flagLe ⟨false, false, false, false, none, []⟩ nd' :=
  ⟨by decide,
   (C5_amended_flags_monotone wChainAB).2.2 "b" "c" ["a"] "b"
     ⟨false, false, false, false, none, []⟩ (by decide)⟩

/-- C7 counterexample: in `opsLateRoot` the first edge-construction call has
`from = "x"` but fails validation, so the root ends up being `"a"`, the
`from` of the *second* call.  This refutes the claim that the root is the
first node passed as a `from` argument to any edge-construction call. -/
theorem C7_root_not_first_from :
    firstFromKey opsLateRoot = some "x" ∧
    (runAll emptyWorkflow opsLateRoot).1.root = some "a" ∧
    (runAll emptyWorkflow opsLateRoot).1.root ≠ firstFromKey opsLateRoot :=
  ⟨by decide, by decide, by decide⟩

/-- C7 amended: once the root is set, no builder call ever changes it; and
while the root is unset, every *successful* edge-construction call sets it
to that call's `from` node. -/
theorem C7_amended_root_assignment :
    (∀ (w : Workflow) (op : Op) (r : String), w.root = some r →
        (applyOp w op).1.root = some r) ∧
    (∀ (w : Workflow) (fk tk : String), w.root = none →
        (AddEdge w fk tk).2 = none → (AddEdge w fk tk).1.root = some fk) ∧
    (∀ (w : Workflow) (fk ck tk ek : String), w.root = none →
        (AddConditionalEdge w fk ck tk ek).2 = none →
        (AddConditionalEdge w fk ck tk ek).1.root = some fk) ∧
    (∀ (w : Workflow) (fk ak : String) (ps : List String), w.root = none →
        (AddParallelEdge w fk ak ps).2 = none →
        (AddParallelEdge w fk ak ps).1.root = some fk) := by
  refine ⟨?_, ?_, ?_, ?_⟩
  · intro w op r h
    cases op with
    | addNode k => simpa [applyOp, AddNode] using h
    | addEdge fk tk =>
      rcases AddEdge_state_cases w fk tk with hc | hc
      · rw [applyOp, hc]; exact h
      · rw [applyOp, hc]; exact assignRoot_root_some w fk r h
    | addConditionalEdge fk ck tk ek =>
      rcases AddConditionalEdge_state_cases w fk ck tk ek with hc | hc
      · rw [applyOp, hc]; exact h
      · rw [applyOp, hc]; exact assignRoot_root_some w fk r h
    | addParallelEdge fk ak ps =>
      rcases AddParallelEdge_state_cases w fk ak ps with hc | hc
      · rw [applyOp, hc]; exact h
      · rw [applyOp, hc]; exact assignRoot_root_some w fk r h
  · intro w fk tk hn hs
    rw [AddEdge_success_root hs]
    exact assignRoot_root_none w fk hn
  · intro w fk ck tk ek hn hs
    rw [AddConditionalEdge_success_root hs]
    exact assignRoot_root_none w fk hn
  · intro w fk ak ps hn hs
    rw [AddParallelEdge_success_root hs]
    exact assignRoot_root_none w fk hn

/-- Witness for the amended C7 at concrete calls. -/
theorem C7_amended_witness :
    wChainAB.root = some "a" ∧
    (applyOp wChainAB (Op.addEdge "b" "c")).1.root = some "a" ∧
    wNodesOnly.root = none ∧
    (AddEdge wNodesOnly "a" "b").1.root = some "a" :=
  ⟨by decide,
   C7_amended_root_assignment.1 wChainAB (Op.addEdge "b" "c") "a" (by decide),
   by decide,
   C7_amended_root_assignment.2.1 wNodesOnly "a" "b" (by decide) (by decide)⟩

/-- C8: a plain `AddEdge` whose other checks pass fails with the structural
error exactly when `from` already owns an adjacency group, while
`AddConditionalEdge` and `AddParallelEdge` can never return the structural
error. -/
theorem C8_structural_error_policy :
    (∀ (w : Workflow) (fk tk : String),
        validateNode w [fk, tk] = true → isCircular w tk fk = none → fk ≠ tk →
        (plookup w.nodes fk).isSome = true →
        AddEdge w fk tk = (assignRoot w fk, some WfError.structural)) ∧
    (∀ (w : Workflow) (fk ck tk ek : String),
        (AddConditionalEdge w fk ck tk ek).2 ≠ some WfError.structural) ∧
    (∀ (w : Workflow) (fk ak : String) (ps : List String),
        (AddParallelEdge w fk ak ps).2 ≠ some WfError.structural) := by
  refine ⟨?_, ?_, ?_⟩
  · intro w fk tk hval hic hft hex
    simp [AddEdge, hval, hic, hft, assignRoot_nodes, hex]
  · intro w fk ck tk ek
    cases hval : validateNode w [fk, ck, tk, ek] with
    | false => simp [AddConditionalEdge, hval]
    | true =>
      cases hic1 : isCircular w tk fk with
      | some e =>
        simp only [AddConditionalEdge, hval, hic1, Bool.not_true,
          Bool.false_eq_true, if_false, ite_false]
        intro h
        rw [h] at hic1
        exact isCircular_not_structural hic1
      | none =>
      cases hic2 : isCircular w ek fk with
      | some e =>
        simp only [AddConditionalEdge, hval, hic1, hic2, Bool.not_true,
          Bool.false_eq_true, if_false, ite_false]
        intro h
        rw [h] at hic2
        exact isCircular_not_structural hic2
      | none =>
      cases hic3 : isCircular w ck fk with
      | some e =>
        simp only [AddConditionalEdge, hval, hic1, hic2, hic3, Bool.not_true,
          Bool.false_eq_true, if_false, ite_false]
        intro h
        rw [h] at hic3
        exact isCircular_not_structural hic3
      | none =>
        simp [AddConditionalEdge, hval, hic1, hic2, hic3]
  · intro w fk ak ps
    cases hval : validateNode w [fk, ak] with
    | false => simp [AddParallelEdge, hval]
    | true =>
    cases hvps : validateNode w ps with
    | false => simp [AddParallelEdge, hval, hvps]
    | true =>
    cases hic : isCircular w ak fk with
    | some e =>
      simp only [AddParallelEdge, hval, hvps, hic, Bool.not_true,
        Bool.false_eq_true, if_false, ite_false]
      intro h
      rw [h] at hic
      exact isCircular_not_structural hic
    | none =>
      simp only [AddParallelEdge, hval, hvps, hic, Bool.not_true,
        Bool.false_eq_true, if_false, ite_false]
      set w0 := modifyNode (assignRoot w fk) fk
          (fun nd => { nd with isParallelNode := true }) with hw0
      cases hq : parallelLoop ak fk w0 ps with
      | mk w2 e2 =>
        cases e2 with
        | some e =>
          simp only
          intro h
          rw [Option.some.injEq] at h
          subst h
          exact parallelLoop_not_structural ak fk ps w0 (by rw [hq])
        | none => simp

/-- Witness for C8 at a concrete rejected second edge. -/
theorem C8_structural_error_policy_witness :
    (plookup wChainAB.nodes "a").isSome = true ∧
    AddEdge wChainAB "a" "c" = (assignRoot wChainAB "a", some WfError.structural) :=
  ⟨by decide,
   C8_structural_error_policy.1 wChainAB "a" "c"
     (by decide) (by decide) (by decide) (by decide)⟩

/-! ### Executor lemmas -/

lemma goRun_exec_leaf {env : Env} {w : Workflow} {order : List Nat}
    {fuel : Nat} {nk param : String} {nd : Node}
    (h : lookupNode w nk = some nd) (hnext : nd.next = []) :
    goRun env w order (fuel + 1) (.exec nk param) =
      .ret (env nk [("data", param)]).1 (env nk [("data", param)]).2 := by
  simp [goRun, h, hnext]

lemma goRun_exec_step {env : Env} {w : Workflow} {order : List Nat}
    {fuel : Nat} {nk param : String} {nd : Node}
    (h : lookupNode w nk = some nd) (hne : ¬nd.next = []) :
    goRun env w order (fuel + 1) (.exec nk param) =
      goRun env w order fuel (.loop nd.next (env nk [("data", param)]).1) := by
  simp [goRun, h, hne]

lemma goRun_loop_cons_plain {env : Env} {w : Workflow} {order : List Nat}
    {fuel : Nat} {tk res : String} {rest : List String} {tnd : Node}
    (htk : lookupNode w tk = some tnd)
    (hc : tnd.isConditionalNode = false) (hp : tnd.isParallelNode = false) :
    goRun env w order (fuel + 1) (.loop (tk :: rest) res) =
      (match goRun env w order fuel (.exec tk res) with
       | .crash cr => .crash cr
       | .ret _ (some e) => .ret "" (some e)
       | .ret r none => goRun env w order fuel (.loop rest r)) := by
  simp [goRun, htk, hc, hp]

lemma goRun_loop_nil {env : Env} {w : Workflow} {order : List Nat}
    {fuel : Nat} {res : String} :
    goRun env w order (fuel + 1) (.loop [] res) = .ret res none := by
  simp [goRun]

lemma goRun_exec_chain {env : Env} {w : Workflow} {order : List Nat}
    {g : Nat} {nk tk param r : String} {nd tnd : Node}
    (h : lookupNode w nk = some nd) (hnext : nd.next = [tk])
    (htk : lookupNode w tk = some tnd)
    (hc : tnd.isConditionalNode = false) (hp : tnd.isParallelNode = false)
    (hrec : goRun env w order (g + 1)
        (.exec tk (env nk [("data", param)]).1) = .ret r none) :
    goRun env w order (g + 1 + 1 + 1) (.exec nk param) = .ret r none := by
  rw [goRun_exec_step h (by simp [hnext]), hnext,
    goRun_loop_cons_plain htk hc hp, hrec]
  simp [goRun_loop_nil]

lemma aggInput_env_swap {env1 env2 : Env} {order : List Nat} {res : ByteS}
    (h1 : ∀ q, (env1 "b1" q).1 = (env2 "b1" q).1)
    (h2 : ∀ q, (env1 "b2" q).1 = (env2 "b2" q).1) :
    aggInput env1 ["b1", "b2"] order res = aggInput env2 ["b1", "b2"] order res := by
  simp [aggInput, h1, h2]

/-! ### Claim theorems about the execution engine -/

/-- C1: the fan-in of `executeParallel` assigns the i-th *arriving* branch
result to the i-th branch key in list order (`rAggregate[n.key] = <-result`
over one shared channel), so the binding each branch name receives depends
on the goroutine completion order.  With branches `b1 ↦ "r1"`, `b2 ↦ "r2"`
and an aggregate that reports the value bound to `"b1"`, completion order
`[0, 1]` yields `"r1"` but completion order `[1, 0]` yields `"r2"` — and the
map handed to the aggregate then binds `"b1" ↦ "r2"`, another branch's
result.  This contradicts the claimed completion-order-independent,
name-keyed attribution. -/
theorem C1_parallel_attribution_depends_on_order :
    ExecuteW envAttr wPar [0, 1] 9 "p" = .ret "r1" none ∧
    ExecuteW envAttr wPar [1, 0] 9 "p" = .ret "r2" none ∧
    aggInput envAttr ["b1", "b2"] [1, 0] "p" =
      [("b1", "r2"), ("b2", "r1"), ("data", "p")] :=
  ⟨by decide, by decide, by decide⟩

/-- C4: when a conditional node's action succeeds, output parsing `true`
routes execution into `next[0]`, parsing `false` or failing to parse routes
into `next[1]`, and in every case the value forwarded to the chosen branch
is the conditional node's *incoming* payload `param`, not the action's own
output. -/
theorem C4_conditional_routing :
    ∀ (env : Env) (w : Workflow) (order : List Nat) (fuel : Nat)
      (nk param : String) (nd : Node) (t0 t1 : String) (nd0 nd1 : Node),
      lookupNode w nk = some nd →
      nd.next[0]? = some t0 → nd.next[1]? = some t1 →
      lookupNode w t0 = some nd0 → lookupNode w t1 = some nd1 →
      (env nk [("data", param)]).2 = none →
      ((parseBool (env nk [("data", param)]).1 = some true →
          goRun env w order (fuel + 1) (.cond nk param) =
            (if nd0.isParallelNode = true then goRun env w order fuel (.par t0 param)
             else if nd0.isConditionalNode = true then
               goRun env w order fuel (.cond t0 param)
             else goRun env w order fuel (.exec t0 param))) ∧
       (parseBool (env nk [("data", param)]).1 = some false →
          goRun env w order (fuel + 1) (.cond nk param) =
            (if nd1.isParallelNode = true then goRun env w order fuel (.par t1 param)
             else if nd1.isConditionalNode = true then
               goRun env w order fuel (.cond t1 param)
             else goRun env w order fuel (.exec t1 param))) ∧
       (parseBool (env nk [("data", param)]).1 = none →
          goRun env w order (fuel + 1) (.cond nk param) =
            (if nd1.isParallelNode = true then goRun env w order fuel (.par t1 param)
             else if nd1.isConditionalNode = true then
               goRun env w order fuel (.cond t1 param)
             else goRun env w order fuel (.exec t1 param)))) := by
  intro env w order fuel nk param nd t0 t1 nd0 nd1 h1 h2 h3 h4 h5 h6
  refine ⟨?_, ?_, ?_⟩ <;> intro hp <;>
    simp [goRun, h1, h2, h3, h4, h5, h6, hp]

/-- Witness for C4: a condition returning the literal `"true"` dispatches to
the true branch `t` with the original payload. -/
theorem C4_conditional_routing_witness :
    parseBool (envCondTrue "c" [("data", "p")]).1 = some true ∧
    goRun envCondTrue wCond [] 4 (.cond "c" "p") =
      goRun envCondTrue wCond [] 3 (.exec "t" "p") := by
  refine ⟨by decide, ?_⟩
  have h := (C4_conditional_routing envCondTrue wCond [] 3 "c" "p"
      ⟨false, false, true, false, none, ["t", "e"]⟩ "t" "e"
      ⟨true, false, false, false, none, []⟩ ⟨false, true, false, false, none, []⟩
      (by decide) (by decide) (by decide) (by decide) (by decide) (by decide)).1
      (by decide)
  simpa using h

/-- C6: during parallel execution a branch action's failure is swallowed —
its result component is collected and aggregation proceeds, and the outcome
visible to the caller of `Execute` is unchanged if branch errors are erased
— whereas a failure of the parallel source's own action, or of the
aggregate action, immediately aborts with that error. -/
theorem C6_branch_failure_swallowed :
    (∀ (env : Env) (w : Workflow) (order : List Nat) (fuel : Nat)
        (nk param : String) (nd : Node) (e : String),
        lookupNode w nk = some nd →
        (env nk [("data", param)]).2 = some e →
        goRun env w order (fuel + 1) (.par nk param) = .ret "" (some e)) ∧
    (∀ (env : Env) (w : Workflow) (order : List Nat) (fuel : Nat)
        (nk param : String) (nd : Node) (ak e : String),
        lookupNode w nk = some nd →
        (env nk [("data", param)]).2 = none →
        nd.aggregateNode = some ak →
        (env ak (aggInput env nd.next order (env nk [("data", param)]).1)).2 =
          some e →
        goRun env w order (fuel + 1) (.par nk param) = .ret "" (some e)) ∧
    (∀ (env1 env2 : Env) (order : List Nat) (f : Nat) (p : ByteS),
        (∀ k, k ≠ "b1" → k ≠ "b2" → env1 k = env2 k) →
        (∀ q, (env1 "b1" q).1 = (env2 "b1" q).1) →
        (∀ q, (env1 "b2" q).1 = (env2 "b2" q).1) →
        ExecuteW env1 wPar order (f + 1 + 1 + 1 + 1) p =
          ExecuteW env2 wPar order (f + 1 + 1 + 1 + 1) p) := by
  refine ⟨?_, ?_, ?_⟩
  · intro env w order fuel nk param nd e h1 h2
    simp [goRun, h1, h2]
  · intro env w order fuel nk param nd ak e h1 h2 h3 h4
    simp [goRun, h1, h2, h3, h4]
  · intro env1 env2 order f p h hb1 hb2
    have hr : env1 "r" = env2 "r" := h "r" (by decide) (by decide)
    have hs : env1 "s" = env2 "s" := h "s" (by decide) (by decide)
    have hg : env1 "g" = env2 "g" := h "g" (by decide) (by decide)
    have ht : env1 "t" = env2 "t" := h "t" (by decide) (by decide)
    have hroot : wPar.root = some "r" := by decide
    have l_r : lookupNode wPar "r" =
        some ⟨false, false, false, false, none, ["s"]⟩ := by decide
    have l_s : lookupNode wPar "s" =
        some ⟨false, false, false, true, some "g", ["b1", "b2"]⟩ := by decide
    have l_g : lookupNode wPar "g" =
        some ⟨false, false, false, false, none, ["t"]⟩ := by decide
    have l_t : lookupNode wPar "t" =
        some ⟨false, false, false, false, none, []⟩ := by decide
    simp [ExecuteW, hroot, goRun, l_r, l_s, l_g, l_t, hr, hs, hg, ht,
      aggInput_env_swap hb1 hb2]

/-- Witness for C6 at concrete environments over `wPar`. -/
theorem C6_branch_failure_swallowed_witness :
    goRun envSrcFail wPar [0, 1] 4 (.par "s" "p") = .ret "" (some "src-fail") ∧
    goRun envAggFail wPar [0, 1] 4 (.par "s" "p") = .ret "" (some "agg-fail") ∧
    ((envBrFail "b1" [("data", "p")]).2 = some "boom" ∧
      ExecuteW envBrFail wPar [0, 1] (2 + 1 + 1 + 1 + 1) "p" =
        ExecuteW envBrOk wPar [0, 1] (2 + 1 + 1 + 1 + 1) "p") := by
  refine ⟨?_, ?_, by decide, ?_⟩
  · exact C6_branch_failure_swallowed.1 envSrcFail wPar [0, 1] 3 "s" "p"
      ⟨false, false, false, true, some "g", ["b1", "b2"]⟩ "src-fail"
      (by decide) (by decide)
  · exact C6_branch_failure_swallowed.2.1 envAggFail wPar [0, 1] 3 "s" "p"
      ⟨false, false, false, true, some "g", ["b1", "b2"]⟩ "g" "agg-fail"
      (by decide) (by decide) (by decide) (by decide)
  · exact C6_branch_failure_swallowed.2.2 envBrFail envBrOk [0, 1] 2 "p"
      (by
        intro k hk1 hk2
        funext q
        simp [envBrFail, envBrOk, hk1, hk2])
      (by intro q; simp [envBrFail, envBrOk])
      (by intro q; simp [envBrFail, envBrOk])

/-- C9: executing the chained workflow `a → b → c` of plain nodes on payload
`p` returns exactly the composition of the three actions: `a`'s output on
`{"data": p}` is fed as `"data"` into `b`, whose output is fed as `"data"`
into `c`, whose output is the final result. -/
theorem C9_sequential_composition :
    ∀ (env : Env) (order : List Nat) (p x y z : ByteS),
      env "a" [("data", p)] = (x, none) →
      env "b" [("data", x)] = (y, none) →
      env "c" [("data", y)] = (z, none) →
      ExecuteW env wSeq order 5 p = .ret z none := by
  intro env order p x y z ha hb hc
  have hroot : wSeq.root = some "a" := by decide
  have la : lookupNode wSeq "a" =
      some ⟨false, false, false, false, none, ["b"]⟩ := by decide
  have lb : lookupNode wSeq "b" =
      some ⟨false, false, false, false, none, ["c"]⟩ := by decide
  have lc : lookupNode wSeq "c" =
      some ⟨false, false, false, false, none, []⟩ := by decide
  have h1 : goRun env wSeq order (0 + 1) (.exec "c" (env "b" [("data", x)]).1) =
      .ret z none := by
    rw [goRun_exec_leaf lc rfl, hb]
    simp [hc]
  have h2 : goRun env wSeq order (0 + 1 + 1 + 1)
      (.exec "b" (env "a" [("data", p)]).1) = .ret z none := by
    apply goRun_exec_chain lb rfl lc rfl rfl
    rw [ha]
    exact h1
  have h3 : goRun env wSeq order (0 + 1 + 1 + 1 + 1 + 1) (.exec "a" p) =
      .ret z none := by
    apply goRun_exec_chain la rfl lb rfl rfl
    exact h2
  simp only [ExecuteW, hroot]
  exact h3

/-- Witness for C9 with concrete appending actions. -/
theorem C9_sequential_composition_witness :
    envSeqW "a" [("data", "p")] = ("pa", none) ∧
    ExecuteW envSeqW wSeq [] 5 "p" = .ret "pabc" none :=
  ⟨by decide,
   C9_sequential_composition envSeqW [] "p" "pa" "pab" "pabc"
     (by decide) (by decide) (by decide)⟩

/-- C10: when execution reaches a parallel source whose aggregate's action
succeeds but whose aggregate has an empty `next` list, the engine's
unconditional read of `aggregateNode.next[0]` is an out-of-bounds access —
the run crashes instead of returning the aggregate's output — whereas a
plain node with an empty `next` list terminates normally, returning its
action's result. -/
theorem C10_aggregate_requires_successor :
    (∀ (env : Env) (w : Workflow) (order : List Nat) (fuel : Nat)
        (nk param : String) (nd : Node) (ak : String) (agg : Node),
        lookupNode w nk = some nd →
        (env nk [("data", param)]).2 = none →
        nd.aggregateNode = some ak →
        (env ak (aggInput env nd.next order (env nk [("data", param)]).1)).2 =
          none →
        lookupNode w ak = some agg →
        agg.next = [] →
        goRun env w order (fuel + 1) (.par nk param) = .crash .panicIdx) ∧
    (∀ (env : Env) (w : Workflow) (order : List Nat) (fuel : Nat)
        (nk param : String) (nd : Node),
        lookupNode w nk = some nd → nd.next = [] →
        goRun env w order (fuel + 1) (.exec nk param) =
          .ret (env nk [("data", param)]).1 (env nk [("data", param)]).2) := by
  refine ⟨?_, ?_⟩
  · intro env w order fuel nk param nd ak agg h1 h2 h3 h4 h5 h6
    simp [goRun, h1, h2, h3, h4, h5, h6]
  · intro env w order fuel nk param nd h1 h2
    simp [goRun, h1, h2]

/-- Witness for C10: on `wAggTerm` (aggregate `g` without successors) the
run crashes, at the `executeParallel` step and at the `Execute` level. -/
theorem C10_aggregate_requires_successor_witness :
    goRun envEcho wAggTerm [0] 3 (.par "s" "p") = .crash .panicIdx ∧
    ExecuteW envEcho wAggTerm [0] 5 "p" = .crash .panicIdx :=
  ⟨C10_aggregate_requires_successor.1 envEcho wAggTerm [0] 2 "s" "p"
     ⟨false, false, false, true, some "g", ["b"]⟩ "g"
     ⟨false, false, false, false, none, []⟩
     (by decide) (by decide) (by decide) (by decide) (by decide) (by decide),
   by decide⟩

end FlowGraph
